import Mathlib

/- Shallow embedding of the wachy core (controller.rs, program.rs, views.rs).
   Addresses, sizes, lines and counts are Nat; displacements are Int;
   the f32 frequency is modelled as an exact rational. -/

/-- Association-list lookup, modelling HashMap::get. -/
def lookupA {κ α : Type} [DecidableEq κ] (m : List (κ × α)) (k : κ) : Option α :=
  match m with
  | [] => none
  | (k2, v) :: rest => if k2 = k then some v else lookupA rest k

/-- Association-list insert with overwrite, modelling HashMap::insert. -/
def insertA {κ α : Type} [DecidableEq κ] (m : List (κ × α)) (k : κ) (v : α) : List (κ × α) :=
  match m with
  | [] => [(k, v)]
  | (k2, v2) :: rest => if k2 = k then (k2, v) :: rest else (k2, v2) :: insertA rest k v

/-- Name of a function symbol (program.rs FunctionName); the interned str is a String here. -/
def FunctionName : Type := String

instance : DecidableEq FunctionName := fun a b => instDecidableEqString a b

/-- program.rs SymbolInfo. -/
structure SymbolInfo where
  name : FunctionName
  demangled_name : Option String
  section_index : Option Nat
  address : Nat
  size : Nat
deriving DecidableEq

/-- addr2line Location, as used by program.rs (file and line are optional). -/
structure Location where
  file : Option String
  line : Option Nat
deriving DecidableEq

/-- Model of the decoded first operand and target data of a CALL instruction
    (zydis DecodedInstruction as consumed by controller.rs): reg is the first
    operand register (none for Register::NONE), memBase the memory-operand base
    register, memDisp the displacement, target the result of
    calc_absolute_address, length the instruction length. -/
structure Instruction where
  reg : Option String
  memBase : Option String
  memDisp : Int
  target : Nat
  length : Nat
deriving DecidableEq

/-- Program state relevant to address lookups (program.rs Program).
    find_location models context.find_location (Result of Option);
    call_instructions models get_instructions_with_mnemonic(CALL) applied to
    get_data of a function, the zydis disassembler being abstracted as input. -/
structure Program where
  dynamic_symbols_ranges : List (Nat × Nat)
  dynamic_symbols_map : List (Nat × FunctionName)
  address_to_name : List (Nat × FunctionName)
  name_to_symbol : List (FunctionName × SymbolInfo)
  find_location : Nat → Except Unit (Option Location)
  call_instructions : FunctionName → List (Instruction × Nat)

/-- program.rs Program::get_location: returns the location only when both file
    and line are populated. -/
def Program.get_location (p : Program) (address : Nat) : Option Location :=
  match p.find_location address with
  | .error _ => none
  | .ok none => none
  | .ok (some l) =>
    match l.file with
    | none => none
    | some _ =>
      match l.line with
      | none => none
      | some _ => some l

/-- program.rs Program::is_dynamic_symbol_address: membership in any
    half-open (start, end) range of a PLT-like section. -/
def Program.is_dynamic_symbol_address (p : Program) (address : Nat) : Bool :=
  p.dynamic_symbols_ranges.any (fun r => decide (r.1 ≤ address) && decide (address < r.2))

/-- program.rs Program::get_function_for_address. -/
def Program.get_function_for_address (p : Program) (address : Nat) : Option FunctionName :=
  if p.is_dynamic_symbol_address address then
    lookupA p.dynamic_symbols_map address
  else
    lookupA p.address_to_name address

/-- program.rs Program::get_symbol. -/
def Program.get_symbol (p : Program) (function : FunctionName) : Option SymbolInfo :=
  lookupA p.name_to_symbol function

/-- program.rs Program::is_dynamic_symbol. -/
def Program.is_dynamic_symbol (p : Program) (symbol : SymbolInfo) : Bool :=
  p.is_dynamic_symbol_address symbol.address

/-- Helper: whatever get_location returns has both fields populated. -/
theorem get_location_fields (p : Program) (address : Nat) (l : Location)
    (h : p.get_location address = some l) : l.file.isSome ∧ l.line.isSome := by
  unfold Program.get_location at h
  cases hf : p.find_location address with
  | error e => rw [hf] at h; exact absurd h (by simp)
  | ok o =>
    rw [hf] at h
    cases o with
    | none => exact absurd h (by simp)
    | some l2 =>
      simp only at h
      cases hfile : l2.file with
      | none => rw [hfile] at h; exact absurd h (by simp)
      | some f =>
        rw [hfile] at h
        cases hline : l2.line with
        | none => rw [hline] at h; exact absurd h (by simp)
        | some n =>
          rw [hline] at h
          simp only [Option.some.injEq] at h
          subst h
          exact ⟨by rw [hfile]; rfl, by rw [hline]; rfl⟩

/-- Modelled from the spec: trace_structs.rs is not in src. The variant of a
    call instruction; the four cases mirror both spec section 3 and the
    constructors and matches used by controller.rs. -/
inductive InstructionType where
  | unknown : InstructionType
  | register (r : String) (displacement : Option Int) : InstructionType
  | dynamicSymbol (f : FunctionName) : InstructionType
  | function (f : FunctionName) : InstructionType
deriving DecidableEq

/-- Modelled from the spec: trace_structs.rs CallInstruction, relative offset
    from function start, instruction length, and the variant. -/
structure CallInstruction where
  relative_ip : Nat
  length : Nat
  instruction : InstructionType
deriving DecidableEq

/-- Constructor CallInstruction::register. -/
def CallInstruction.register (relative_ip length : Nat) (r : String)
    (displacement : Option Int) : CallInstruction :=
  ⟨relative_ip, length, InstructionType.register r displacement⟩

/-- Constructor CallInstruction::dynamic_symbol. -/
def CallInstruction.dynamic_symbol (relative_ip length : Nat) (f : FunctionName) :
    CallInstruction :=
  ⟨relative_ip, length, InstructionType.dynamicSymbol f⟩

/-- Constructor CallInstruction::function. -/
def CallInstruction.function (relative_ip length : Nat) (f : FunctionName) :
    CallInstruction :=
  ⟨relative_ip, length, InstructionType.function f⟩

/-- Constructor CallInstruction::unknown. -/
def CallInstruction.unknown (relative_ip length : Nat) : CallInstruction :=
  ⟨relative_ip, length, InstructionType.unknown⟩

/-- The classification of one CALL instruction by its first operand, exactly as
    in the match of controller.rs Controller::create_frame_info lines 177-218. -/
def classifyCall (p : Program) (instruction : Instruction) (relative_ip : Nat) :
    CallInstruction :=
  match instruction.reg with
  | some r => CallInstruction.register relative_ip instruction.length r none
  | none =>
    match instruction.memBase with
    | some r =>
      CallInstruction.register relative_ip instruction.length r (some instruction.memDisp)
    | none =>
      let call_address := instruction.target
      match p.get_function_for_address call_address with
      | some function =>
        if p.is_dynamic_symbol_address call_address then
          CallInstruction.dynamic_symbol relative_ip instruction.length function
        else
          CallInstruction.function relative_ip instruction.length function
      | none => CallInstruction.unknown relative_ip instruction.length

/-- HashMap entry(line).or_default().push(ci) on the line-to-callsites map. -/
def insertCallsite (m : List (Nat × List CallInstruction)) (line : Nat)
    (ci : CallInstruction) : List (Nat × List CallInstruction) :=
  match m with
  | [] => [(line, [ci])]
  | (l, cis) :: rest =>
    if l = line then (l, cis ++ [ci]) :: rest else (l, cis) :: insertCallsite rest line ci

/-- Modelled from the spec: trace_structs.rs FrameInfo, one drill-down level,
    with the fields passed to FrameInfo::new by controller.rs. -/
structure FrameInfo where
  function : FunctionName
  source_file : String
  source_line : Nat
  line_to_callsites : List (Nat × List CallInstruction)

/-- The per-instruction loop of Controller::create_frame_info lines 171-236:
    classify each CALL, look up its debug location, drop it when the file
    differs from the entry source file, otherwise bucket it under its line.
    The unwrap of get_location(ip) is modelled as an error. -/
def buildCallsites (p : Program) (start_address : Nat) (source_file : String)
    (instructions : List (Instruction × Nat))
    (acc : List (Nat × List CallInstruction)) :
    Except String (List (Nat × List CallInstruction)) :=
  match instructions with
  | [] => .ok acc
  | (instruction, ip) :: rest =>
    let relative_ip := ip - start_address
    let call_instruction := classifyCall p instruction relative_ip
    match p.get_location ip with
    | none => .error ("get_location unwrap failed")
    | some location =>
      if location.file.getD ("") = source_file then
        buildCallsites p start_address source_file rest
          (insertCallsite acc (location.line.getD 0) call_instruction)
      else
        buildCallsites p start_address source_file rest acc

/-- controller.rs Controller::create_frame_info. Panicking unwraps of the
    source (missing symbol, get_data on an address-0 symbol) are modelled as
    errors, as is the missing-location error return of line 156. -/
def create_frame_info (p : Program) (function : FunctionName) :
    Except String FrameInfo :=
  match lookupA p.name_to_symbol function with
  | none => .error ("symbol not found")
  | some symbol =>
    match p.get_location symbol.address with
    | none => .error ("Failed to get source information corresponding to function")
    | some location =>
      let source_file := location.file.getD ("")
      let source_line := location.line.getD 0
      if symbol.address = 0 then
        .error ("Cannot get data for dynamically linked symbol")
      else
        match buildCallsites p symbol.address source_file
            (p.call_instructions function) [] with
        | .error e => .error e
        | .ok line_to_callsites =>
          .ok ⟨function, source_file, source_line, line_to_callsites⟩

/-- The list of callsites recorded for a line of a frame (empty when absent). -/
def callsitesAt (fi : FrameInfo) (line : Nat) : List CallInstruction :=
  (lookupA fi.line_to_callsites line).getD []

/-- views.rs TraceState. -/
inductive TraceState (α : Type) where
  | untraced : TraceState α
  | pending : TraceState α
  | traced (v : α) : TraceState α
deriving DecidableEq

/-- views.rs source_view::Item; latency is a Duration in nanoseconds, the f32
    frequency is modelled as an exact rational. -/
structure Item where
  latency : TraceState Nat
  frequency : TraceState ℚ
  line_number : Nat
  line : String
  marked : Bool
deriving DecidableEq

/-- tracer.rs TraceInfo per line, as read in controller.rs handle_trace_data:
    sample count and summed duration (nanoseconds). -/
structure LineInfo where
  count : Nat
  duration : Nat
deriving DecidableEq

/-- tracer.rs TraceData::Data payload: version counter, per-line aggregates,
    elapsed wall-clock time (seconds, exact rational for f32). -/
structure TraceDataPayload where
  counter : Nat
  traces : List (Nat × LineInfo)
  time_secs : ℚ
deriving DecidableEq

/-- tracer.rs TraceData messages received by the controller. -/
inductive TraceData where
  | fatalError (message : String) : TraceData
  | data (d : TraceDataPayload) : TraceData

/-- Controller-side state touched by handle_trace_data: the current trace-stack
    version counter and the source-view items. -/
structure ControllerState where
  current_counter : Nat
  items : List Item
deriving DecidableEq

/-- Modelled from the spec: trace_structs.rs TraceStack::is_counter_current is
    not in src; is_current(version) is a constant-time staleness check that the
    given version is the current one. -/
def is_counter_current (c : ControllerState) (counter : Nat) : Bool :=
  counter = c.current_counter

/-- Rust Duration division by a u32, which panics on a zero divisor; the panic
    is modelled as none. -/
def durationDiv (duration : Nat) (count : Nat) : Option Nat :=
  if count = 0 then none else some (duration / count)

/-- Latency computed in controller.rs handle_trace_data lines 101-105: divide
    only when the count is nonzero, otherwise the untraced state. -/
def computeLatency (info : LineInfo) : Option (TraceState Nat) :=
  if info.count ≠ 0 then
    (durationDiv info.duration info.count).map TraceState.traced
  else
    some TraceState.untraced

/-- Frequency computed in controller.rs handle_trace_data lines 106-107:
    count divided by the elapsed time of the dump. -/
def computeFrequency (d : TraceDataPayload) (info : LineInfo) : TraceState ℚ :=
  TraceState.traced ((info.count : ℚ) / d.time_secs)

/-- controller.rs Controller::set_line_state: update the item of a 1-based
    line; the out-of-bounds unwrap panic is modelled as none. -/
def set_line_state (items : List Item) (line : Nat) (latency : TraceState Nat)
    (frequency : TraceState ℚ) : Option (List Item) :=
  match items.get? (line - 1) with
  | none => none
  | some item =>
    some (items.set (line - 1) { item with latency := latency, frequency := frequency })

/-- The per-line update loop of handle_trace_data lines 100-109. -/
def applyTraces (d : TraceDataPayload) (items : List Item) : Option (List Item) :=
  d.traces.foldlM
    (fun items lineinfo =>
      match computeLatency lineinfo.2 with
      | none => none
      | some latency => set_line_state items lineinfo.1 latency (computeFrequency d lineinfo.2))
    items

/-- controller.rs Controller::handle_trace_data. FatalError quits and returns
    the error; stale data is dropped; current data updates the view items. -/
def handle_trace_data (c : ControllerState) (data : TraceData) :
    Except String ControllerState :=
  match data with
  | .fatalError message => .error message
  | .data d =>
    if ¬ is_counter_current c d.counter then
      .ok c
    else
      match applyTraces d c.items with
      | none => .error ("set_line_state or division panicked")
      | some items2 => .ok { c with items := items2 }

/-- Outcome of the Enter-binding submit path of controller.rs lines 379-397
    and 400-413: which frame was pushed, which notice dialog was added, and
    whether the expect panicked. The faithful translation adds no notice on
    any path (the dynamic-symbol branch is an empty TODO in the source). -/
structure EnterResult where
  pushed : Option FrameInfo
  notice : Option String
  panicked : Option String

/-- The submit action of the Enter binding for a selected symbol: guard by
    Program::is_dynamic_symbol, otherwise set up the function and push the
    frame (setup_source_view is view-only and omitted); the expect of a
    setup_function error is modelled as a panic outcome. -/
def enter_submit (p : Program) (symbol : SymbolInfo) : EnterResult :=
  if p.is_dynamic_symbol symbol then
    { pushed := none, notice := none, panicked := none }
  else
    match create_frame_info p symbol.name with
    | .ok frame_info => { pushed := some frame_info, notice := none, panicked := none }
    | .error e => { pushed := none, notice := none, panicked := some e }

/-- One bit step of the reflected CRC-32 (IEEE polynomial 0xEDB88320), the
    checksum computed by the crc32fast hasher used in program.rs. -/
def crc32_step_bit (r : Nat) : Nat :=
  if r % 2 = 1 then (r / 2) ^^^ 0xEDB88320 else r / 2

/-- Process one byte of input into the CRC-32 state. -/
def crc32_byte (state b : Nat) : Nat :=
  crc32_step_bit^[8] (state ^^^ (b % 256))

/-- crc32fast Hasher::update: process a buffer of bytes. -/
def crc32_update (state : Nat) (bytes : List Nat) : Nat :=
  bytes.foldl crc32_byte state

/-- CRC-32 of a whole byte string: initial state all-ones, final xor. -/
def crc32 (bytes : List Nat) : Nat :=
  crc32_update 0xFFFFFFFF bytes ^^^ 0xFFFFFFFF

/-- The chunked read loop of the hash_fn closure in program.rs
    Program::get_debug_file lines 301-319: read up to READ_SIZE bytes at a
    time and feed each chunk to the hasher until the file is exhausted. -/
def hash_fn_loop (state : Nat) (bytes : List Nat) : Nat :=
  match bytes with
  | [] => state
  | b :: rest =>
    hash_fn_loop (crc32_update state ((b :: rest).take 1048576)) ((b :: rest).drop 1048576)
termination_by bytes.length
decreasing_by simp [List.length_drop]; omega

/-- The full hash_fn closure: fresh hasher, chunked update loop, finalize. -/
def hash_fn (bytes : List Nat) : Nat :=
  hash_fn_loop 0xFFFFFFFF bytes ^^^ 0xFFFFFFFF

/-- A .gnu_debuglink record: companion file name and its expected CRC-32. -/
structure DebugLink where
  filename : String
  crc : Nat
deriving DecidableEq

/-- The parts of a parsed object file consumed by the debug-file location logic
    of Program::new: whether a .debug_line section is present (the
    section_by_name check of line 116), and the .gnu_debuglink record (itself
    fallible, line 285). -/
structure BinaryFile where
  has_debug_line : Bool
  gnu_debuglink : Except String (Option DebugLink)

/-- The file system as seen by program.rs: file contents by path (none models
    an open failure) and the object parser (none models a parse failure). -/
structure FileSystem where
  read_file : String → Option (List Nat)
  parse_bytes : List Nat → Option BinaryFile

/-- The distinct failure modes of loading, one constructor per distinct error
    message built in program.rs lines 113-145 and 281-354. -/
inductive LoadError where
  | failedToOpen (filename : String) : LoadError
  | failedToParse (filename : String) : LoadError
  | failedToGetDebuglink (message : String) : LoadError
  | crcMismatch (debug_filename program_filename : String) : LoadError
  | missingDebugInfo (program_filename : String) : LoadError
  | failedToGetDebugFile (program_filename : String) (inner : LoadError) : LoadError
deriving DecidableEq

/-- program.rs Program::parse: open and mmap the file, then parse the object. -/
def Program_parse (fs : FileSystem) (file_path : String) : Except LoadError BinaryFile :=
  match fs.read_file file_path with
  | none => .error (.failedToOpen file_path)
  | some bytes =>
    match fs.parse_bytes bytes with
    | none => .error (.failedToParse file_path)
    | some file => .ok file

/-- program.rs Program::get_debug_file: none when no .gnu_debuglink; otherwise
    open the companion, CRC-check its contents against the linked CRC, and
    only then parse it. -/
def get_debug_file (fs : FileSystem) (program_file : BinaryFile)
    (program_file_path : String) : Option (Except LoadError BinaryFile) :=
  match program_file.gnu_debuglink with
  | .error err => some (.error (.failedToGetDebuglink err))
  | .ok none => none
  | .ok (some link) =>
    match fs.read_file link.filename with
    | none => some (.error (.failedToOpen link.filename))
    | some bytes =>
      if hash_fn bytes ≠ link.crc then
        some (.error (.crcMismatch link.filename program_file_path))
      else
        some (Program_parse fs link.filename)

/-- The debug-file location step of program.rs Program::new lines 113-138:
    parse the binary; use it if it has .debug_line; otherwise consult
    get_debug_file, failing with the missing-debug-info error when there is no
    debuglink at all. -/
def Program_new_debug_file (fs : FileSystem) (file_path : String) :
    Except LoadError BinaryFile :=
  match Program_parse fs file_path with
  | .error e => .error e
  | .ok file =>
    if file.has_debug_line then .ok file
    else
      match get_debug_file fs file file_path with
      | none => .error (.missingDebugInfo file_path)
      | some (.ok df) => .ok df
      | some (.error err) => .error (.failedToGetDebugFile file_path err)

/-- Kind of an object-file symbol; only text symbols are retained. -/
inductive SymbolKind where
  | text : SymbolKind
  | other : SymbolKind
deriving DecidableEq

/-- An object-file symbol as read through the object crate. -/
structure ObjSymbol where
  name : String
  kind : SymbolKind
  section_index : Option Nat
  address : Nat
  size : Nat
deriving DecidableEq

/-- An object-file section; jumps lists (instruction address, computed
    absolute target) for each JMP found by disassembling the section, the
    zydis disassembler being abstracted as input. -/
structure ObjSection where
  name : String
  address : Nat
  size : Nat
  jumps : List (Nat × Nat)
deriving DecidableEq

/-- The parts of a parsed object file consumed when Program::new builds the
    symbol maps: sections, the symbol table, and the dynamic relocations with
    their already-resolved target symbols. -/
structure ObjFile where
  sections : List ObjSection
  symbols : List ObjSymbol
  dynamic_relocations : List (Nat × ObjSymbol)

/-- program.rs Program::dynamic_symbols_map lines 227-242: record the name of
    every text-kind dynamic relocation target under its relocation address. -/
def relocationsMap (f : ObjFile) : List (Nat × String) :=
  f.dynamic_relocations.foldl
    (fun relocations ar =>
      if ar.2.kind = SymbolKind.text then insertA relocations ar.1 ar.2.name
      else relocations) []

/-- SymbolInfo built for one symbol in Program::new lines 151-166; demangling
    is an external collaborator and is modelled as absent. -/
def symbolInfoOf (symbol : ObjSymbol) : SymbolInfo :=
  { name := symbol.name, demangled_name := none,
    section_index := symbol.section_index,
    address := symbol.address, size := symbol.size }

/-- The versioned-symbols map built while enumerating text symbols in
    Program::new lines 155-158: for a name containing a double at sign, map
    the unversioned prefix to the full name. -/
def versioned_symbols_map (syms : List ObjSymbol) : List (String × String) :=
  (syms.filter (fun s => s.kind = SymbolKind.text)).foldl
    (fun m s =>
      let parts := s.name.splitOn ("@@")
      if parts.length ≥ 2 then insertA m (parts.headD ("")) s.name else m) []

/-- The name-to-symbol index of Program::new line 178, over the enumerated
    text symbols. -/
def build_name_to_symbol (syms : List ObjSymbol) : List (String × SymbolInfo) :=
  (syms.filter (fun s => s.kind = SymbolKind.text)).foldl
    (fun m s => insertA m s.name (symbolInfoOf s)) []

/-- Model of str starts_with over the character data of the strings (the
    String.startsWith of the library is not kernel-reducible). -/
def str_starts_with (s p : String) : Bool :=
  p.data.isPrefixOf s.data

/-- The versioned-name rewrite of Program::dynamic_symbols_map lines 264-269. -/
def versioned_rewrite (versioned : List (String × String)) (name : String) : String :=
  match lookupA versioned name with
  | some versioned_name => versioned_name
  | none => name

/-- program.rs Program::dynamic_symbols_map lines 244-277: for every section
    whose name starts with .plt, record each JMP whose target address appears
    in the relocations map, applying the versioned rewrite to the name. -/
def dynamic_symbols_map_of (f : ObjFile) (versioned : List (String × String)) :
    List (Nat × String) :=
  let relocations := relocationsMap f
  f.sections.foldl
    (fun map s =>
      if str_starts_with s.name (".plt") then
        s.jumps.foldl
          (fun map ipjump =>
            match lookupA relocations ipjump.2 with
            | some name => insertA map ipjump.1 (versioned_rewrite versioned name)
            | none => map) map
      else map) []

/-- Lookup after an overwriting insert. -/
theorem lookupA_insertA {κ α : Type} [DecidableEq κ] (m : List (κ × α)) (k j : κ) (v : α) :
    lookupA (insertA m k v) j = if k = j then some v else lookupA m j := by
  induction m with
  | nil =>
    by_cases h : k = j
    · simp [insertA, lookupA, h]
    · simp [insertA, lookupA, h]
  | cons kv rest ih =>
    obtain ⟨k2, v2⟩ := kv
    by_cases hk : k2 = k
    · by_cases hj : k = j
      · simp [insertA, lookupA, hk, hj]
      · have hkj : ¬ (k2 = j) := fun he => hj (hk ▸ he)
        simp [insertA, lookupA, hk, hj, hkj]
    · by_cases hj : k2 = j
      · have hkj : ¬ (k = j) := fun he => hk (by rw [hj, he])
        simp only [insertA, lookupA, hk, hj, hkj, if_false, if_neg]
        rw [if_neg (fun he : j = k => hkj he.symm)]
        simp [lookupA]
      · by_cases hkq : k = j
        · simp only [insertA, lookupA, hk, hj, hkq, if_false, ite_false] at ih ⊢
          exact ih
        · simp [insertA, lookupA, hk, hj, hkq, ih]

/-- C3: for every address, get_location either returns None or a location with
    both file and line populated; it never returns one missing either field. -/
theorem c3_get_location_populated (p : Program) (address : Nat) :
    p.get_location address = none ∨
    ∃ l : Location, p.get_location address = some l ∧ l.file.isSome ∧ l.line.isSome := by
  cases h : p.get_location address with
  | none => exact Or.inl rfl
  | some l => exact Or.inr ⟨l, rfl, get_location_fields p address l h⟩

/-- Program exercising the two dispatch branches of get_function_for_address:
    address 5 lies inside the stub range but is absent from the stub map while
    present in the local text-symbol map. -/
def p4ex : Program :=
  { dynamic_symbols_ranges := [(0, 10)],
    dynamic_symbols_map := [],
    address_to_name := [(5, "f")],
    name_to_symbol := [],
    find_location := fun _ => .ok none,
    call_instructions := fun _ => [] }

/-- C4 counterexample: address 5 is not in the dynamic-stub map and is in the
    local text-symbol map, yet get_function_for_address returns none and, in
    particular, differs from the local-map lookup: the address lies in a stub
    range and the local map is never consulted, refuting the claim that an
    address not found in the dynamic-stub map is still looked up in the local
    text-symbol map. -/
theorem c4_counterexample :
    p4ex.is_dynamic_symbol_address 5 = true ∧
    lookupA p4ex.dynamic_symbols_map 5 = none ∧
    lookupA p4ex.address_to_name 5 = some ("f") ∧
    p4ex.get_function_for_address 5 = none ∧
    p4ex.get_function_for_address 5 ≠ lookupA p4ex.address_to_name 5 :=
  ⟨rfl, rfl, rfl, rfl, by decide⟩

/-- C4 (amended): get_function_for_address dispatches on whether the address
    lies in a dynamic-stub range: inside a range only the dynamic-stub map is
    consulted, outside only the local text-symbol map; in particular an
    in-range address that misses the dynamic-stub map resolves to None even
    when the local text-symbol map contains it. -/
theorem c4_two_map_dispatch (p : Program) (address : Nat) :
    (p.is_dynamic_symbol_address address = true →
      p.get_function_for_address address = lookupA p.dynamic_symbols_map address) ∧
    (p.is_dynamic_symbol_address address = false →
      p.get_function_for_address address = lookupA p.address_to_name address) ∧
    (p.is_dynamic_symbol_address address = true →
      lookupA p.dynamic_symbols_map address = none →
      p.get_function_for_address address = none) := by
  refine ⟨fun h => ?_, fun h => ?_, fun h h2 => ?_⟩
  · simp [Program.get_function_for_address, h]
  · simp [Program.get_function_for_address, h]
  · simp [Program.get_function_for_address, h, h2]

/-- Witness for the amended C4 theorem at concrete addresses 5 and 11. -/
theorem c4_two_map_dispatch_witness :
    p4ex.get_function_for_address 5 = lookupA p4ex.dynamic_symbols_map 5 ∧
    p4ex.get_function_for_address 11 = lookupA p4ex.address_to_name 11 ∧
    p4ex.get_function_for_address 5 = none :=
  ⟨(c4_two_map_dispatch p4ex 5).1 rfl, (c4_two_map_dispatch p4ex 11).2.1 rfl,
   (c4_two_map_dispatch p4ex 5).2.2 rfl rfl⟩

/-- C5: a Data message whose version counter is not current is dropped: the
    handler returns successfully and the controller state, including every
    per-line latency and frequency item, is unchanged. -/
theorem c5_stale_trace_data_dropped (c : ControllerState) (d : TraceDataPayload)
    (h : is_counter_current c d.counter = false) :
    handle_trace_data c (TraceData.data d) = .ok c := by
  simp [handle_trace_data, h]

/-- Witness for C5 at a concrete stale message. -/
theorem c5_stale_trace_data_dropped_witness :
    handle_trace_data ⟨3, []⟩ (TraceData.data ⟨2, [(1, ⟨0, 0⟩)], 1⟩) = .ok ⟨3, []⟩ :=
  c5_stale_trace_data_dropped ⟨3, []⟩ ⟨2, [(1, ⟨0, 0⟩)], 1⟩ (by decide)

/-- C10: per-line latency divides summed duration by count only when the count
    is nonzero (so the fallible division never sees a zero divisor and never
    panics), a zero count yields the untraced state, and frequency is the
    count divided by the elapsed time of the dump. -/
theorem c10_latency_division_guarded (d : TraceDataPayload) (info : LineInfo) :
    (computeLatency info).isSome ∧
    (info.count = 0 → computeLatency info = some TraceState.untraced) ∧
    (info.count ≠ 0 →
      computeLatency info = some (TraceState.traced (info.duration / info.count))) ∧
    computeFrequency d info = TraceState.traced ((info.count : ℚ) / d.time_secs) := by
  by_cases h : info.count = 0
  · refine ⟨?_, fun _ => ?_, fun hc => absurd h hc, rfl⟩ <;>
      simp [computeLatency, h]
  · refine ⟨?_, fun hc => absurd hc h, fun _ => ?_, rfl⟩ <;>
      simp [computeLatency, durationDiv, h]

/-- Witness for C10 at a zero count and at a nonzero count. -/
theorem c10_latency_division_guarded_witness :
    computeLatency ⟨0, 5⟩ = some TraceState.untraced ∧
    computeLatency ⟨2, 11⟩ = some (TraceState.traced 5) ∧
    computeFrequency ⟨1, [], 4⟩ ⟨2, 11⟩ = TraceState.traced ((2 : ℚ) / 4) :=
  ⟨(c10_latency_division_guarded ⟨1, [], 4⟩ ⟨0, 5⟩).2.1 rfl,
   (c10_latency_division_guarded ⟨1, [], 4⟩ ⟨2, 11⟩).2.2.1 (by decide),
   (c10_latency_division_guarded ⟨1, [], 4⟩ ⟨2, 11⟩).2.2.2⟩

/-- Program with a stub range covering 100..200 whose stub map is empty while
    the local text-symbol map knows address 150. -/
def p2ex : Program :=
  { dynamic_symbols_ranges := [(100, 200)],
    dynamic_symbols_map := [],
    address_to_name := [(150, "h")],
    name_to_symbol := [],
    find_location := fun _ => .ok none,
    call_instructions := fun _ => [] }

/-- Absolute-immediate call instruction targeting address 150. -/
def ins2ex : Instruction :=
  { reg := none, memBase := none, memDisp := 0, target := 150, length := 5 }

/-- C2 counterexample: the computed target 150 lies in a dynamic stub range
    and even resolves in the local text-symbol map, yet the classification is
    Unknown: it is not DynamicSymbol(name) for any name, refuting the
    claim that an in-range target yields DynamicSymbol, and not
    DirectFunction(name) for any name, refuting the claim that a target
    resolving to a local text symbol yields DirectFunction; the stub map
    alone is consulted for in-range addresses. -/
theorem c2_counterexample :
    p2ex.is_dynamic_symbol_address ins2ex.target = true ∧
    lookupA p2ex.address_to_name ins2ex.target = some ("h") ∧
    classifyCall p2ex ins2ex 7 = CallInstruction.unknown 7 5 ∧
    (¬ ∃ fname, classifyCall p2ex ins2ex 7 =
      CallInstruction.dynamic_symbol 7 5 fname) ∧
    (¬ ∃ fname, classifyCall p2ex ins2ex 7 =
      CallInstruction.function 7 5 fname) := by
  refine ⟨rfl, rfl, rfl, ?_, ?_⟩
  · rintro ⟨fname, h⟩
    have h2 : InstructionType.unknown = InstructionType.dynamicSymbol fname :=
      congrArg CallInstruction.instruction h
    cases h2
  · rintro ⟨fname, h⟩
    have h2 : InstructionType.unknown = InstructionType.function fname :=
      congrArg CallInstruction.instruction h
    cases h2

/-- The classification of a call instruction as the amended claim words it:
    register operand, then memory base register, then for an absolute
    immediate, an in-range target uses only the dynamic-stub map (Unknown on a
    miss) and an out-of-range target uses only the local text-symbol map. -/
def classifyCallSpec (p : Program) (instruction : Instruction) (relative_ip : Nat) :
    CallInstruction :=
  match instruction.reg with
  | some r => CallInstruction.register relative_ip instruction.length r none
  | none =>
    match instruction.memBase with
    | some r =>
      CallInstruction.register relative_ip instruction.length r (some instruction.memDisp)
    | none =>
      if p.is_dynamic_symbol_address instruction.target then
        match lookupA p.dynamic_symbols_map instruction.target with
        | some f => CallInstruction.dynamic_symbol relative_ip instruction.length f
        | none => CallInstruction.unknown relative_ip instruction.length
      else
        match lookupA p.address_to_name instruction.target with
        | some f => CallInstruction.function relative_ip instruction.length f
        | none => CallInstruction.unknown relative_ip instruction.length

/-- C2 (amended): the classification performed by create_frame_info coincides
    with the amended per-operand description for every decoded instruction. -/
theorem c2_classification (p : Program) (instruction : Instruction) (relative_ip : Nat) :
    classifyCall p instruction relative_ip = classifyCallSpec p instruction relative_ip := by
  unfold classifyCall classifyCallSpec Program.get_function_for_address
  cases hr : instruction.reg with
  | some r => rfl
  | none =>
    cases hb : instruction.memBase with
    | some r => rfl
    | none =>
      by_cases hd : p.is_dynamic_symbol_address instruction.target <;>
        simp [hd]

/-- The chunked hashing loop computes the same state as hashing the whole byte
    string in one pass. -/
theorem hash_fn_loop_eq_update (state : Nat) (bytes : List Nat) :
    hash_fn_loop state bytes = crc32_update state bytes := by
  induction state, bytes using hash_fn_loop.induct with
  | case1 state => rw [hash_fn_loop]; rfl
  | case2 state b rest ih =>
    rw [hash_fn_loop, ih]
    unfold crc32_update
    rw [← List.foldl_append, List.take_append_drop]

/-- The hash_fn closure of get_debug_file computes the CRC-32 of the entire
    byte contents of the companion file. -/
theorem hash_fn_eq_crc32 (bytes : List Nat) : hash_fn bytes = crc32 bytes := by
  unfold hash_fn crc32
  rw [hash_fn_loop_eq_update]

/-- Helper: Program_new_debug_file once the parse of the binary is known. -/
theorem Program_new_debug_file_eq (fs : FileSystem) (file_path : String)
    (file : BinaryFile) (hparse : Program_parse fs file_path = .ok file) :
    Program_new_debug_file fs file_path =
      (if file.has_debug_line then .ok file
       else
         match get_debug_file fs file file_path with
         | none => .error (.missingDebugInfo file_path)
         | some (.ok df) => .ok df
         | some (.error err) => .error (.failedToGetDebugFile file_path err)) := by
  unfold Program_new_debug_file
  rw [hparse]

/-- Helper: get_debug_file once the debug-link record is known. -/
theorem get_debug_file_eq (fs : FileSystem) (file : BinaryFile) (path : String)
    (link : DebugLink) (hgl : file.gnu_debuglink = .ok (some link)) :
    get_debug_file fs file path =
      (match fs.read_file link.filename with
       | none => some (.error (.failedToOpen link.filename))
       | some bytes =>
         if hash_fn bytes ≠ link.crc then
           some (.error (.crcMismatch link.filename path))
         else some (Program_parse fs link.filename)) := by
  unfold get_debug_file
  rw [hgl]

/-- C7: when a debug-link is present and the companion file can be read, the
    CRC-32 of the entire byte contents of the companion is compared to the
    linked CRC; on mismatch get_debug_file yields the distinct CRC-mismatch
    error, so the companion is never parsed or used for debug info. -/
theorem c7_crc_checked_before_use (fs : FileSystem) (file : BinaryFile)
    (path : String) (link : DebugLink) (bytes : List Nat)
    (hlink : file.gnu_debuglink = .ok (some link))
    (hbytes : fs.read_file link.filename = some bytes)
    (hcrc : crc32 bytes ≠ link.crc) :
    get_debug_file fs file path =
      some (.error (.crcMismatch link.filename path)) := by
  rw [get_debug_file_eq fs file path link hlink, hbytes]
  simp only [hash_fn_eq_crc32]
  rw [if_pos hcrc]

/-- File system holding an empty companion file for the C7 witness. -/
def fs7 : FileSystem :=
  { read_file := fun _ => some [], parse_bytes := fun _ => none }

/-- Binary whose debug-link names the companion with a wrong CRC. -/
def file7 : BinaryFile :=
  { has_debug_line := false,
    gnu_debuglink := .ok (some ⟨"prog.debug", 1⟩) }

/-- Witness for C7: the empty companion hashes to 0, not the linked 1, and the
    result is exactly the CRC-mismatch error. -/
theorem c7_crc_checked_before_use_witness :
    get_debug_file fs7 file7 ("prog") =
      some (.error (.crcMismatch ("prog.debug") ("prog"))) :=
  c7_crc_checked_before_use fs7 file7 ("prog") ⟨"prog.debug", 1⟩ [] rfl rfl (by decide)

/-- Companion object file without a .debug_line section. -/
def file6dbg : BinaryFile :=
  { has_debug_line := false, gnu_debuglink := .ok none }

/-- Binary without .debug_line whose debug-link names the companion with the
    correct CRC of its one-byte contents. -/
def file6bin : BinaryFile :=
  { has_debug_line := false,
    gnu_debuglink := .ok (some ⟨"prog.debug", crc32 [1]⟩) }

/-- File system for the C6 counterexample: the binary parses to file6bin, the
    companion to file6dbg; neither has a .debug_line section. -/
def fs6 : FileSystem :=
  { read_file := fun path =>
      if path = "prog" then some [0]
      else if path = "prog.debug" then some [1]
      else none,
    parse_bytes := fun bytes =>
      if bytes = [0] then some file6bin
      else if bytes = [1] then some file6dbg
      else none }

/-- File system where the binary parses to file6bin but the companion named
    by its debug-link cannot be opened. -/
def fs6c : FileSystem :=
  { read_file := fun path => if path = "prog" then some [0] else none,
    parse_bytes := fun bytes => if bytes = [0] then some file6bin else none }

/-- C6 counterexample, refuting the exactly-when claim in both directions: no
    .debug_line section exists in the binary or in the CRC-valid companion,
    yet loading proceeds with the companion instead of failing with a
    missing-debug-info error (the companion is never checked for the
    section); and when the companion cannot even be opened, so that no
    debug-line section can be located at all, the failure is the wrapped
    open error, not the missing-debug-info error. -/
theorem c6_counterexample :
    file6bin.has_debug_line = false ∧
    file6dbg.has_debug_line = false ∧
    Program_new_debug_file fs6 ("prog") = .ok file6dbg ∧
    Program_new_debug_file fs6c ("prog") =
      .error (.failedToGetDebugFile ("prog") (.failedToOpen ("prog.debug"))) ∧
    Program_new_debug_file fs6c ("prog") ≠
      .error (.missingDebugInfo ("prog")) := by
  refine ⟨rfl, rfl, ?_, rfl, ?_⟩
  case refine_2 =>
    intro h
    rw [show Program_new_debug_file fs6c ("prog") =
      .error (.failedToGetDebugFile ("prog") (.failedToOpen ("prog.debug")))
      from rfl] at h
    exact absurd (Except.error.inj h) (by decide)
  rw [Program_new_debug_file_eq fs6 ("prog") file6bin rfl]
  rw [if_neg (by decide : ¬ (file6bin.has_debug_line = true))]
  rw [get_debug_file_eq fs6 file6bin ("prog") ⟨"prog.debug", crc32 [1]⟩ rfl]
  rw [show fs6.read_file (DebugLink.filename ⟨"prog.debug", crc32 [1]⟩) = some [1] from rfl]
  simp only [hash_fn_eq_crc32]
  rw [if_neg (by simp : ¬ (crc32 [1] ≠ DebugLink.crc ⟨"prog.debug", crc32 [1]⟩))]
  rfl

/-- C6 (amended): given the binary parses, the missing-debug-info error occurs
    exactly when the binary lacks a .debug_line section and has no debug-link
    at all; when the section is present directly, loading proceeds with the
    binary, and when a debug-link names a readable companion whose contents
    match the linked CRC and which parses, loading proceeds with that
    companion, whether or not the companion has the section. -/
theorem c6_missing_debug_info_iff (fs : FileSystem) (file_path : String)
    (file : BinaryFile) (hparse : Program_parse fs file_path = .ok file) :
    (Program_new_debug_file fs file_path = .error (.missingDebugInfo file_path) ↔
      file.has_debug_line = false ∧ file.gnu_debuglink = .ok none) ∧
    (file.has_debug_line = true → Program_new_debug_file fs file_path = .ok file) ∧
    (∀ link bytes df, file.has_debug_line = false →
      file.gnu_debuglink = .ok (some link) →
      fs.read_file link.filename = some bytes →
      crc32 bytes = link.crc →
      Program_parse fs link.filename = .ok df →
      Program_new_debug_file fs file_path = .ok df) := by
  have heq := Program_new_debug_file_eq fs file_path file hparse
  refine ⟨⟨?_, ?_⟩, ?_, ?_⟩
  · intro h
    rw [heq] at h
    by_cases hdl : file.has_debug_line = true
    · rw [if_pos hdl] at h
      exact absurd h (by simp)
    · rw [if_neg hdl] at h
      refine ⟨by simpa using hdl, ?_⟩
      cases hgl : file.gnu_debuglink with
      | error e =>
        rw [show get_debug_file fs file file_path =
              some (.error (.failedToGetDebuglink e)) by
            unfold get_debug_file; rw [hgl]] at h
        simp at h
      | ok o =>
        cases o with
        | none => rfl
        | some link =>
          exfalso
          rw [get_debug_file_eq fs file file_path link hgl] at h
          cases hb : fs.read_file link.filename with
          | none => rw [hb] at h; simp at h
          | some bytes =>
            rw [hb] at h
            simp only [hash_fn_eq_crc32] at h
            by_cases hc : crc32 bytes ≠ link.crc
            · rw [if_pos hc] at h
              simp at h
            · rw [if_neg hc] at h
              cases hp : Program_parse fs link.filename with
              | error e => rw [hp] at h; simp at h
              | ok df => rw [hp] at h; simp at h
  · intro hand
    rw [heq, if_neg (by simp [hand.1] : ¬ (file.has_debug_line = true))]
    rw [show get_debug_file fs file file_path = none by
      unfold get_debug_file; rw [hand.2]]
  · intro hdl
    rw [heq, if_pos hdl]
  · intro link bytes df hdl hgl hb hcrc hp
    rw [heq, if_neg (by simp [hdl] : ¬ (file.has_debug_line = true))]
    rw [get_debug_file_eq fs file file_path link hgl, hb]
    simp only [hash_fn_eq_crc32]
    have hnc : ¬ (crc32 bytes ≠ link.crc) := fun hne => hne hcrc
    rw [if_neg hnc, hp]

/-- Binary with neither a .debug_line section nor a debug-link. -/
def file6plain : BinaryFile :=
  { has_debug_line := false, gnu_debuglink := .ok none }

/-- File system whose only file parses to file6plain. -/
def fs6b : FileSystem :=
  { read_file := fun _ => some [2], parse_bytes := fun _ => some file6plain }

/-- Witness for the amended C6 theorem: a binary with no debug-link fails with
    the missing-debug-info error, and a CRC-valid companion is used. -/
theorem c6_missing_debug_info_iff_witness :
    Program_new_debug_file fs6b ("prog") = .error (.missingDebugInfo ("prog")) ∧
    Program_new_debug_file fs6 ("prog") = .ok file6dbg :=
  ⟨(c6_missing_debug_info_iff fs6b ("prog") file6plain rfl).1.mpr ⟨rfl, rfl⟩,
   (c6_missing_debug_info_iff fs6 ("prog") file6bin rfl).2.2
     ⟨"prog.debug", crc32 [1]⟩ [1] file6dbg rfl rfl rfl rfl rfl⟩

/-- An address-0 dynamic (undefined) symbol, as selected in the Enter search. -/
def sym8 : SymbolInfo :=
  { name := "puts", demangled_name := none, section_index := none,
    address := 0, size := 0 }

/-- A symbol whose address lies inside the PLT stub range of p8. -/
def sym8b : SymbolInfo :=
  { name := "stub", demangled_name := none, section_index := none,
    address := 1000, size := 16 }

/-- Program for the C8 scenario: one PLT range 1000..1016, the dynamic symbol
    puts recorded at address 0 in the symbol index, and no debug location for
    address 0. -/
def p8 : Program :=
  { dynamic_symbols_ranges := [(1000, 1016)],
    dynamic_symbols_map := [(1000, "puts")],
    address_to_name := [],
    name_to_symbol := [("puts", sym8)],
    find_location := fun _ => .ok none,
    call_instructions := fun _ => [] }

/-- C8: selecting a dynamic (address-0) symbol in the Enter binding produces
    no user-visible notice; the is_dynamic_symbol guard tests whether the
    address lies in a PLT range, which is false for address 0, so the code
    attempts to descend and the expect panics; even when the guard holds (an
    in-range address), the branch is an empty TODO and shows no notice. -/
theorem c8_enter_dynamic_symbol_no_notice :
    p8.is_dynamic_symbol sym8 = false ∧
    (enter_submit p8 sym8).notice = none ∧
    (enter_submit p8 sym8).pushed = none ∧
    (enter_submit p8 sym8).panicked =
      some ("Failed to get source information corresponding to function") ∧
    p8.is_dynamic_symbol sym8b = true ∧
    enter_submit p8 sym8b = { pushed := none, notice := none, panicked := none } :=
  ⟨rfl, rfl, rfl, rfl, rfl, rfl⟩

/-- The list stored for a line in a raw line-to-callsites map. -/
def bucket (m : List (Nat × List CallInstruction)) (line : Nat) :
    List CallInstruction :=
  (lookupA m line).getD []

/-- Inserting a callsite appends it to the bucket of its own line. -/
theorem bucket_insertCallsite_self (m : List (Nat × List CallInstruction))
    (line : Nat) (ci : CallInstruction) :
    bucket (insertCallsite m line ci) line = bucket m line ++ [ci] := by
  induction m with
  | nil => simp [insertCallsite, bucket, lookupA]
  | cons kv rest ih =>
    obtain ⟨l, cis⟩ := kv
    by_cases h : l = line
    · subst h
      simp [insertCallsite, bucket, lookupA]
    · unfold insertCallsite
      rw [if_neg h]
      unfold bucket
      simp only [lookupA]
      rw [if_neg h, if_neg h]
      exact ih

/-- Inserting a callsite leaves every other bucket unchanged. -/
theorem bucket_insertCallsite_ne (m : List (Nat × List CallInstruction))
    (line l2 : Nat) (ci : CallInstruction) (h : l2 ≠ line) :
    bucket (insertCallsite m line ci) l2 = bucket m l2 := by
  induction m with
  | nil =>
    have hne : ¬ (line = l2) := fun he => h he.symm
    simp [insertCallsite, bucket, lookupA, hne]
  | cons kv rest ih =>
    obtain ⟨l, cis⟩ := kv
    unfold insertCallsite
    by_cases hl : l = line
    · rw [if_pos hl]
      unfold bucket
      simp only [lookupA]
      have hne : ¬ (l = l2) := fun he => h (by rw [← he, hl])
      rw [if_neg hne, if_neg hne]
    · rw [if_neg hl]
      unfold bucket
      simp only [lookupA]
      by_cases hl2 : l = l2
      · rw [if_pos hl2, if_pos hl2]
      · rw [if_neg hl2, if_neg hl2]
        exact ih

/-- Soundness of the callsite loop: every callsite in the produced map was in
    the accumulator already or stems from a listed call instruction whose
    debug-info file equals the entry source file and whose debug-info line is
    the bucket line. -/
theorem buildCallsites_sound (p : Program) (s : Nat) (sf : String) :
    ∀ (l : List (Instruction × Nat)) (acc m : List (Nat × List CallInstruction)),
      buildCallsites p s sf l acc = .ok m →
      ∀ line ci, ci ∈ bucket m line →
        ci ∈ bucket acc line ∨
        ∃ ins ip, (ins, ip) ∈ l ∧
          ∃ loc, p.get_location ip = some loc ∧ loc.file = some sf ∧
            loc.line = some line ∧ ci = classifyCall p ins (ip - s) := by
  intro l
  induction l with
  | nil =>
    intro acc m h line ci hm
    unfold buildCallsites at h
    cases h
    exact Or.inl hm
  | cons head rest ih =>
    intro acc m h line ci hm
    obtain ⟨ins, ip⟩ := head
    simp only [buildCallsites] at h
    cases hloc : p.get_location ip with
    | none => simp [hloc] at h
    | some loc =>
      simp only [hloc] at h
      obtain ⟨hfs, hls⟩ := get_location_fields p ip loc hloc
      by_cases hfile : loc.file.getD ("") = sf
      · rw [if_pos hfile] at h
        rcases ih _ m h line ci hm with hacc | ⟨ins2, ip2, hmem, loc2, hloc2, hf2, hl2, hc2⟩
        · by_cases hline : line = loc.line.getD 0
          · subst hline
            rw [bucket_insertCallsite_self] at hacc
            rcases List.mem_append.mp hacc with hin | hone
            · exact Or.inl hin
            · right
              refine ⟨ins, ip, List.mem_cons_self _ _, loc, hloc, ?_, ?_, ?_⟩
              · obtain ⟨f, hf⟩ := Option.isSome_iff_exists.mp hfs
                rw [hf]
                rw [hf] at hfile
                simpa using hfile
              · obtain ⟨n, hn⟩ := Option.isSome_iff_exists.mp hls
                rw [hn]
                simp
              · simpa using hone
          · rw [bucket_insertCallsite_ne _ _ _ _ hline] at hacc
            exact Or.inl hacc
        · exact Or.inr ⟨ins2, ip2, List.mem_cons_of_mem _ hmem, loc2, hloc2, hf2, hl2, hc2⟩
      · rw [if_neg hfile] at h
        rcases ih _ m h line ci hm with hacc | ⟨ins2, ip2, hmem, loc2, hloc2, hf2, hl2, hc2⟩
        · exact Or.inl hacc
        · exact Or.inr ⟨ins2, ip2, List.mem_cons_of_mem _ hmem, loc2, hloc2, hf2, hl2, hc2⟩

/-- Completeness of the callsite loop: accumulated callsites persist, and
    every listed call instruction whose debug-info file equals the entry
    source file ends up in the bucket of its debug-info line. -/
theorem buildCallsites_complete (p : Program) (s : Nat) (sf : String) :
    ∀ (l : List (Instruction × Nat)) (acc m : List (Nat × List CallInstruction)),
      buildCallsites p s sf l acc = .ok m →
      (∀ line ci, ci ∈ bucket acc line → ci ∈ bucket m line) ∧
      (∀ ins ip, (ins, ip) ∈ l → ∀ loc, p.get_location ip = some loc →
        loc.file.getD ("") = sf →
        classifyCall p ins (ip - s) ∈ bucket m (loc.line.getD 0)) := by
  intro l
  induction l with
  | nil =>
    intro acc m h
    unfold buildCallsites at h
    cases h
    exact ⟨fun _ _ hm => hm, fun _ _ hmem => absurd hmem (List.not_mem_nil _)⟩
  | cons head rest ih =>
    intro acc m h
    obtain ⟨ins, ip⟩ := head
    simp only [buildCallsites] at h
    cases hloc : p.get_location ip with
    | none => simp [hloc] at h
    | some loc =>
      simp only [hloc] at h
      by_cases hfile : loc.file.getD ("") = sf
      · rw [if_pos hfile] at h
        obtain ⟨P1, P2⟩ := ih _ m h
        constructor
        · intro line ci hacc
          apply P1
          by_cases hline : line = loc.line.getD 0
          · subst hline
            rw [bucket_insertCallsite_self]
            exact List.mem_append_left _ hacc
          · rw [bucket_insertCallsite_ne _ _ _ _ hline]
            exact hacc
        · intro ins2 ip2 hmem loc2 hloc2 hf2
          rcases List.mem_cons.mp hmem with heq | hmem2
          · injection heq with e1 e2
            subst e1
            subst e2
            rw [hloc] at hloc2
            injection hloc2 with e3
            subst e3
            apply P1
            rw [bucket_insertCallsite_self]
            exact List.mem_append_right _ (List.mem_singleton_self _)
          · exact P2 ins2 ip2 hmem2 loc2 hloc2 hf2
      · rw [if_neg hfile] at h
        obtain ⟨P1, P2⟩ := ih _ m h
        refine ⟨P1, ?_⟩
        intro ins2 ip2 hmem loc2 hloc2 hf2
        rcases List.mem_cons.mp hmem with heq | hmem2
        · injection heq with e1 e2
          subst e1
          subst e2
          rw [hloc] at hloc2
          injection hloc2 with e3
          subst e3
          exact absurd hf2 hfile
        · exact P2 ins2 ip2 hmem2 loc2 hloc2 hf2

/-- C1: in every FrameInfo built by create_frame_info, each callsite in any
    line bucket stems from a call instruction whose debug-info file equals the
    frame source file and whose debug-info line is that bucket line (so no
    call from a different file survives), and conversely every call whose
    debug-info file equals the entry file is grouped under its debug-info
    line. -/
theorem c1_inlined_calls_dropped (p : Program) (function : FunctionName)
    (fi : FrameInfo) (h : create_frame_info p function = .ok fi) :
    ∃ symbol, lookupA p.name_to_symbol function = some symbol ∧
      (∀ line ci, ci ∈ callsitesAt fi line →
        ∃ ins ip, (ins, ip) ∈ p.call_instructions function ∧
          ∃ loc, p.get_location ip = some loc ∧ loc.file = some fi.source_file ∧
            loc.line = some line ∧ ci = classifyCall p ins (ip - symbol.address)) ∧
      (∀ ins ip loc, (ins, ip) ∈ p.call_instructions function →
        p.get_location ip = some loc → loc.file = some fi.source_file →
        classifyCall p ins (ip - symbol.address) ∈ callsitesAt fi (loc.line.getD 0)) := by
  unfold create_frame_info at h
  cases hsym : lookupA p.name_to_symbol function with
  | none => simp [hsym] at h
  | some symbol =>
    simp only [hsym] at h
    cases hloc : p.get_location symbol.address with
    | none => simp [hloc] at h
    | some location =>
      simp only [hloc] at h
      by_cases haddr : symbol.address = 0
      · rw [if_pos haddr] at h
        exact absurd h (by simp)
      · rw [if_neg haddr] at h
        cases hbc : buildCallsites p symbol.address (location.file.getD (""))
            (p.call_instructions function) [] with
        | error e =>
          rw [hbc] at h
          exact absurd h (by simp)
        | ok ltc =>
          rw [hbc] at h
          injection h with hfi
          subst hfi
          refine ⟨symbol, rfl, ?_, ?_⟩
          · intro line ci hci
            rcases buildCallsites_sound p symbol.address (location.file.getD (""))
                (p.call_instructions function) [] ltc hbc line ci hci with
              hnil | ⟨ins, ip, hmem, loc, hl, hf, hn, hc⟩
            · simp [bucket, lookupA] at hnil
            · exact ⟨ins, ip, hmem, loc, hl, hf, hn, hc⟩
          · intro ins ip loc hmem hl hf
            have hcomp := (buildCallsites_complete p symbol.address
                (location.file.getD ("")) (p.call_instructions function) [] ltc hbc).2
            apply hcomp ins ip hmem loc hl
            rw [hf]
            simp

/-- Symbol for the entry function of the C1 witness program. -/
def sym1 : SymbolInfo :=
  { name := "main", demangled_name := none, section_index := some 1,
    address := 4096, size := 32 }

/-- An absolute-immediate call with unresolvable target 100. -/
def ins1 : Instruction :=
  { reg := none, memBase := none, memDisp := 0, target := 100, length := 5 }

/-- Witness program: main at 4096 in main.c line 10, one call at 4100 mapped
    to main.c line 12, one inlined call at 4200 mapped to other.c. -/
def p1 : Program :=
  { dynamic_symbols_ranges := [],
    dynamic_symbols_map := [],
    address_to_name := [],
    name_to_symbol := [("main", sym1)],
    find_location := fun a =>
      if a = 4096 then .ok (some ⟨some ("main.c"), some 10⟩)
      else if a = 4100 then .ok (some ⟨some ("main.c"), some 12⟩)
      else .ok (some ⟨some ("other.c"), some 3⟩),
    call_instructions := fun _ => [(ins1, 4100), (ins1, 4200)] }

/-- The frame produced for p1: only the main.c call survives, grouped under
    line 12; the other.c call is dropped. -/
def frame1 : FrameInfo :=
  ⟨"main", "main.c", 10, [(12, [CallInstruction.unknown 4 5])]⟩

/-- Witness for C1 on the concrete program p1. -/
theorem c1_inlined_calls_dropped_witness :
    ∃ symbol, lookupA p1.name_to_symbol ("main") = some symbol ∧
      (∀ line ci, ci ∈ callsitesAt frame1 line →
        ∃ ins ip, (ins, ip) ∈ p1.call_instructions ("main") ∧
          ∃ loc, p1.get_location ip = some loc ∧
            loc.file = some frame1.source_file ∧
            loc.line = some line ∧ ci = classifyCall p1 ins (ip - symbol.address)) ∧
      (∀ ins ip loc, (ins, ip) ∈ p1.call_instructions ("main") →
        p1.get_location ip = some loc → loc.file = some frame1.source_file →
        classifyCall p1 ins (ip - symbol.address) ∈
          callsitesAt frame1 (loc.line.getD 0)) :=
  c1_inlined_calls_dropped p1 ("main") frame1 rfl

/-- Provenance of the relocations map: every recorded name belongs to a
    text-kind dynamic relocation target at that address. -/
theorem relocationsMap_sound (f : ObjFile) (a : Nat) (n : String)
    (h : lookupA (relocationsMap f) a = some n) :
    ∃ sym, (a, sym) ∈ f.dynamic_relocations ∧
      sym.kind = SymbolKind.text ∧ sym.name = n := by
  unfold relocationsMap at h
  suffices hgen : ∀ (l : List (Nat × ObjSymbol)) (m : List (Nat × String)),
      lookupA (l.foldl (fun relocations ar =>
        if ar.2.kind = SymbolKind.text then insertA relocations ar.1 ar.2.name
        else relocations) m) a = some n →
      lookupA m a = some n ∨
      ∃ sym, (a, sym) ∈ l ∧ sym.kind = SymbolKind.text ∧ sym.name = n by
    rcases hgen f.dynamic_relocations [] h with hnil | hfound
    · simp [lookupA] at hnil
    · exact hfound
  intro l
  induction l with
  | nil => intro m hm; exact Or.inl hm
  | cons ar rest ih =>
    intro m hm
    rw [List.foldl_cons] at hm
    rcases ih _ hm with hbase | ⟨sym, hmem, hk, hn⟩
    · by_cases hkind : ar.2.kind = SymbolKind.text
      · rw [if_pos hkind, lookupA_insertA] at hbase
        by_cases ha : ar.1 = a
        · right
          refine ⟨ar.2, ?_, hkind, ?_⟩
          · rw [← ha]
            exact List.mem_cons_self _ _
          · rw [if_pos ha] at hbase
            exact (Option.some.injEq _ _).mp hbase
        · rw [if_neg ha] at hbase
          exact Or.inl hbase
      · rw [if_neg hkind] at hbase
        exact Or.inl hbase
    · exact Or.inr ⟨sym, List.mem_cons_of_mem _ hmem, hk, hn⟩

/-- Provenance of the inner PLT jump fold: every recorded name is keyed by
    the address of one of the listed jumps, and is the versioned rewrite of
    the relocations-map entry at that jump's computed target. -/
theorem plt_jumps_foldl_sound (relocations : List (Nat × String))
    (versioned : List (String × String)) (jumps : List (Nat × Nat)) :
    ∀ (m : List (Nat × String)) (ip : Nat) (n : String),
      lookupA (jumps.foldl (fun map ipjump =>
        match lookupA relocations ipjump.2 with
        | some name => insertA map ipjump.1 (versioned_rewrite versioned name)
        | none => map) m) ip = some n →
      lookupA m ip = some n ∨
      ∃ jt, (ip, jt) ∈ jumps ∧
        ∃ raw, lookupA relocations jt = some raw ∧
          n = versioned_rewrite versioned raw := by
  induction jumps with
  | nil => intro m ip n hm; exact Or.inl hm
  | cons ipjump rest ih =>
    intro m ip n hm
    rw [List.foldl_cons] at hm
    rcases ih _ ip n hm with hbase | ⟨jt, hjmem, hfound⟩
    · cases hr : lookupA relocations ipjump.2 with
      | none =>
        rw [hr] at hbase
        exact Or.inl hbase
      | some raw =>
        rw [hr] at hbase
        rw [lookupA_insertA] at hbase
        by_cases hip : ipjump.1 = ip
        · right
          refine ⟨ipjump.2, ?_, raw, hr, ?_⟩
          · rw [← hip]
            exact List.mem_cons_self _ _
          · rw [if_pos hip] at hbase
            exact ((Option.some.injEq _ _).mp hbase).symm
        · rw [if_neg hip] at hbase
          exact Or.inl hbase
    · exact Or.inr ⟨jt, List.mem_cons_of_mem _ hjmem, hfound⟩

/-- Provenance of the outer section fold of dynamic_symbols_map: every entry
    comes from a jump of a .plt-prefixed section. -/
theorem sections_foldl_sound (relocations : List (Nat × String))
    (versioned : List (String × String)) (sections : List ObjSection) :
    ∀ (m : List (Nat × String)) (ip : Nat) (n : String),
      lookupA (sections.foldl (fun map s =>
        if str_starts_with s.name (".plt") then
          s.jumps.foldl (fun map ipjump =>
            match lookupA relocations ipjump.2 with
            | some name => insertA map ipjump.1 (versioned_rewrite versioned name)
            | none => map) map
        else map) m) ip = some n →
      lookupA m ip = some n ∨
      ∃ s, s ∈ sections ∧ str_starts_with s.name (".plt") = true ∧
        ∃ jt, (ip, jt) ∈ s.jumps ∧
          ∃ raw, lookupA relocations jt = some raw ∧
            n = versioned_rewrite versioned raw := by
  induction sections with
  | nil => intro m ip n hm; exact Or.inl hm
  | cons s rest ih =>
    intro m ip n hm
    rw [List.foldl_cons] at hm
    rcases ih _ ip n hm with hbase | ⟨s2, hsmem, hsplt, hfound⟩
    · by_cases hplt : str_starts_with s.name (".plt") = true
      · rw [if_pos hplt] at hbase
        rcases plt_jumps_foldl_sound relocations versioned s.jumps m ip n hbase with
          hm2 | ⟨jt, hjmem, hraw⟩
        · exact Or.inl hm2
        · exact Or.inr ⟨s, List.mem_cons_self _ _, hplt, jt, hjmem, hraw⟩
      · rw [if_neg hplt] at hbase
        exact Or.inl hbase
    · exact Or.inr ⟨s2, List.mem_cons_of_mem _ hsmem, hsplt, hfound⟩

/-- Relocation symbol used in the C9 counterexample. -/
def relsym9 : ObjSymbol :=
  { name := "puts", kind := SymbolKind.text, section_index := none,
    address := 0, size := 0 }

/-- Object file whose PLT jump resolves to puts, while the static symbol table
    is empty, so puts never enters the name-to-symbol index. -/
def f9 : ObjFile :=
  { sections := [⟨".plt", 100, 16, [(104, 200)]⟩],
    symbols := [],
    dynamic_relocations := [(200, relsym9)] }

/-- C9 counterexample: the dynamic-stub map built for f9 carries puts, yet
    the name-to-symbol index built in the same load has no entry for puts, so
    there is no SymbolInfo for it at all, let alone one with address 0 and
    size 0, refuting the claim that the lookup always succeeds. -/
theorem c9_counterexample :
    lookupA (dynamic_symbols_map_of f9 (versioned_symbols_map f9.symbols)) 104 =
      some ("puts") ∧
    lookupA (build_name_to_symbol f9.symbols) ("puts") = none ∧
    (¬ ∃ si, lookupA (build_name_to_symbol f9.symbols) ("puts") = some si ∧
      si.address = 0 ∧ si.size = 0) := by
  refine ⟨rfl, rfl, ?_⟩
  rintro ⟨si, hsi, h2, h3⟩
  rw [show lookupA (build_name_to_symbol f9.symbols) ("puts") = none from rfl] at hsi
  exact Option.noConfusion hsi

/-- C9 (amended): every FunctionName in the dynamic-stub map is recorded
    under the address of a JMP of a .plt-prefixed section whose computed
    target is the address of a text-kind dynamic relocation, and the name is
    the versioned-map rewrite of that relocation target's name; resolution in
    the name-to-symbol index, and the address-0 and size-0 values, are not
    guaranteed by the construction. -/
theorem c9_dynamic_symbol_provenance (f : ObjFile) (ip : Nat) (name : String)
    (h : lookupA (dynamic_symbols_map_of f (versioned_symbols_map f.symbols)) ip =
      some name) :
    ∃ s, s ∈ f.sections ∧ str_starts_with s.name (".plt") = true ∧
      ∃ jt, (ip, jt) ∈ s.jumps ∧
        ∃ sym, (jt, sym) ∈ f.dynamic_relocations ∧ sym.kind = SymbolKind.text ∧
          name = versioned_rewrite (versioned_symbols_map f.symbols) sym.name := by
  unfold dynamic_symbols_map_of at h
  rcases sections_foldl_sound (relocationsMap f) (versioned_symbols_map f.symbols)
      f.sections [] ip name h with hnil | ⟨s, hsmem, hsplt, jt, hjmem, raw, hrel, hn⟩
  · simp [lookupA] at hnil
  · obtain ⟨sym, hmem, hk, hname⟩ := relocationsMap_sound f jt raw hrel
    exact ⟨s, hsmem, hsplt, jt, hjmem, sym, hmem, hk, by rw [hname, ← hn]⟩

/-- Witness for the amended C9 theorem on the concrete object file f9. -/
theorem c9_dynamic_symbol_provenance_witness :
    ∃ s, s ∈ f9.sections ∧ str_starts_with s.name (".plt") = true ∧
      ∃ jt, ((104 : Nat), jt) ∈ s.jumps ∧
        ∃ sym, (jt, sym) ∈ f9.dynamic_relocations ∧ sym.kind = SymbolKind.text ∧
          ("puts" : String) =
            versioned_rewrite (versioned_symbols_map f9.symbols) sym.name :=
  c9_dynamic_symbol_provenance f9 104 ("puts") rfl
